import Mathlib

/-!
Shallow embedding of the loom octilinear grid-embedding optimizer: the ILP model
construction in ILPGridOptimizer (createProblem, optimize, getEdgUseVar,
getStatPosVar) and the base-grid routines of OctiHananGraph (ang, getBendPen,
the bend-edge part of writeNd, ndMovePen), together with the grid reset loop
performed at the start of optimize.

Costs are modelled as rationals; the machine doubles of the source only feed
comparisons and linear arithmetic in the modelled fragments.  The C++ pointers
that the source streams into variable names are modelled as numeric addresses.
Variable and row identities inside the emitted model are represented
structurally (one constructor per name pattern, with the streamed components as
fields); the concrete name strings of getEdgUseVar and getStatPosVar are
modelled separately as strings.
-/

namespace LoomSpec

/-- Row sense of the solver facade (shared::optim): FIX, UP, LO. -/
inductive Sense
  | fix
  | up
  | lo
deriving DecidableEq

/-- Column kind of the solver facade (shared::optim): BIN, INT, CONT. -/
inductive VarKind
  | bin
  | intg
  | cont
deriving DecidableEq

/-- Structural identity of an emitted ILP variable.  Each constructor is one
name pattern of createProblem; the fields are the components streamed into the
name (grid-node ids, and the identities of the streamed comb-node and comb-edge
pointers). -/
inductive VarRef
  | sp (gridId combNdId : Nat)
  | edgUse (grFrId grToId combEdgId : Nat)
  | dir (combNdId combEdgId : Nat)
  | vuln (combNdId slot : Nat)
  | negdist (edgAId edgBId : Nat)
  | bucket (edgAId edgBId k : Nat)
deriving DecidableEq

/-- Structural identity of an emitted ILP row, one constructor per row-name
pattern of createProblem. -/
inductive RowId
  | oneass (combNdId : Nat)
  | flowBal (gridId combEdgId : Nat)
  | vulnSum (combNdId : Nat)
  | ordC (combNdId slot : Nat)
  | ncLo (edgAId edgBId : Nat)
  | ncUp (edgAId edgBId : Nat)
  | acR (edgAId edgBId : Nat)
  | ascR (edgAId edgBId : Nat)
deriving DecidableEq

/-- An emitted row: identity, right-hand side, sense, and the terms added to it
by addColToRow, in emission order. -/
structure RowL where
  rid : RowId
  rhs : ℚ
  sense : Sense
  terms : List (VarRef × ℚ)
deriving DecidableEq

/-- An emitted column: identity, kind, objective coefficient and optional
bounds (addCol with lb and ub). -/
structure ColL where
  ref : VarRef
  kind : VarKind
  obj : ℚ
  lb : Option ℚ
  ub : Option ℚ
deriving DecidableEq

/-- A comb (input) edge: its identity (standing for the C++ object address),
its endpoints, and the lines of its front child (LineEdgePL::getLines of
getChilds().front()). -/
structure CombEdgeL where
  id : Nat
  frId : Nat
  toId : Nat
  lines : List Nat
deriving DecidableEq

/-- A comb (input) node: its identity, its adjacency list (getAdjList), and its
circular edge ordering (getEdgeOrdering().getOrderedSet(), as comb-edge ids). -/
structure CombNodeL where
  id : Nat
  adj : List CombEdgeL
  order : List Nat
deriving DecidableEq

/-- The degree of a comb node is the size of its adjacency list. -/
def CombNodeL.deg (nd : CombNodeL) : Nat := nd.adj.length

/-- A grid edge as read by createProblem: endpoints (grid-node ids) and cost. -/
structure GridEdgeL where
  frId : Nat
  toId : Nat
  cost : ℚ
deriving DecidableEq

/-- A grid node as read by createProblem: id, sink flag, and its incoming and
outgoing adjacency lists. -/
structure GridNodeL where
  id : Nat
  isSink : Bool
  adjIn : List GridEdgeL
  adjOut : List GridEdgeL
deriving DecidableEq

/-- The degree of a grid node: the size of its adjacency. -/
def GridNodeL.deg (n : GridNodeL) : Nat := n.adjIn.length + n.adjOut.length

/-- Modelled from the spec: SOFT_INF is "a finite but large sentinel used to
mark disallowed edges" (its numeric value lives in basegraph headers outside
the embedded files; every use here is purely symbolic). -/
def SOFT_INF : ℚ := 1000000000000

/-- The maximum degree of the octilinear grid (OctiHananGraph::maxDeg). -/
def maxDeg : Nat := 8

/-- ILPGridOptimizer::nonInfDeg: the number of adjacent grid edges with cost
strictly below SOFT_INF. -/
def nonInfDeg (n : GridNodeL) : Nat :=
  ((n.adjIn ++ n.adjOut).filter (fun e => decide (e.cost < SOFT_INF))).length

/-- All pairs (l[i], l[j]) with i < j, exactly the double loop
"for i, for j = i + 1 .." used by createProblem and writeNd. -/
def pairsUpper {α : Type} : List α → List (α × α)
  | [] => []
  | a :: rest => rest.map (fun b => (a, b)) ++ pairsUpper rest

/-- The comb edges in traversal order: for every comb node, the adjacent edges
whose from-node is that node (the canonical per-edge iteration of
createProblem). -/
def combEdgesOf (combNds : List CombNodeL) : List CombEdgeL :=
  combNds.flatMap (fun nd => nd.adj.filter (fun e => decide (e.frId = nd.id)))

/-! ### OctiHananGraph::ang and the bend penalties -/

/-- Two's-complement subtraction of size_t values: the expression i - j
evaluated in unsigned 64-bit arithmetic. -/
def wordSub (i j : Nat) : Nat := (i + (2 ^ 64 - j % 2 ^ 64)) % 2 ^ 64

/-- C-style truncating remainder on int values (the remainder operator of
C++, which keeps the sign of the dividend). -/
def cppMod (a b : Int) : Int := Int.tmod a b

/-- The value computed in the local variable "ang" of OctiHananGraph::ang
before the final fold: (8 + (i - j)) evaluated in size_t arithmetic, reduced
modulo 8, then reflected at 4. -/
def angAux (i j : Nat) : Nat :=
  let a0 := ((8 + wordSub i j) % 2 ^ 64) % 8
  if 4 < a0 then 8 - a0 else a0

/-- OctiHananGraph::ang, the returned value. -/
def ang (i j : Nat) : Nat := angAux i j % 4

/-- The alternative computation in the local variable "deg" of
OctiHananGraph::ang, using signed int arithmetic; an assert in the source
checks it against the returned value. -/
def angDegFormula (i j : Nat) : Nat :=
  let d : Int := (i : Int) - (j : Int)
  (cppMod (cppMod (d + 4) 8 + 8) 8 - 4).natAbs % 4

/-- OctiHananGraph::getBendPen: the configured bend cost for the angle class of
the two ports. -/
def getBendPen (bendCosts : Fin 4 → ℚ) (i j : Nat) : ℚ :=
  bendCosts ⟨ang i j, Nat.mod_lt _ (by norm_num)⟩

/-! ### The bend-edge part of OctiHananGraph::writeNd -/

/-- A cost that may be the hard infinity sentinel INF of the grid. -/
inductive ECost
  | fin (q : ℚ)
  | inf
deriving DecidableEq

/-- A directed bend edge inside one sink: from-port, to-port, and its cost. -/
structure BendEdgeL where
  frPort : Nat
  toPort : Nat
  pen : ECost
deriving DecidableEq

/-- The in-node-connection loop of OctiHananGraph::writeNd for a sink at cell
(x, y) of a W-by-H grid: for every pair of distinct ports i < j, two directed
bend edges carrying the bend penalty of ang(i, j), overridden to INF by the
four border conditions (which test i only). -/
def writeNdBendEdges (bendCosts : Fin 4 → ℚ) (W H x y : Nat) : List BendEdgeL :=
  (pairsUpper (List.range maxDeg)).flatMap (fun p =>
    let i := p.1
    let j := p.2
    let pen0 : ECost := ECost.fin (getBendPen bendCosts i j)
    let pen1 := if x = 0 ∧ (i = 5 ∨ i = 6 ∨ i = 7) then ECost.inf else pen0
    let pen2 := if y = 0 ∧ (i = 0 ∨ i = 7 ∨ i = 1) then ECost.inf else pen1
    let pen3 := if x = W - 1 ∧ (i = 1 ∨ i = 2 ∨ i = 3) then ECost.inf else pen2
    let pen4 := if y = H - 1 ∧ (i = 3 ∨ i = 4 ∨ i = 5) then ECost.inf else pen3
    [⟨i, j, pen4⟩, ⟨j, i, pen4⟩])

/-! ### OctiHananGraph::ndMovePen -/

/-- The direction penalties of the configuration read by ndMovePen. -/
structure PenaltiesL where
  diagonalPen : ℚ
  horizontalPen : ℚ
  verticalPen : ℚ
deriving DecidableEq

/-- OctiHananGraph::ndMovePen.  The Euclidean distance between the comb node
and the grid node (computed by the external geometry utility) is taken as the
input d. -/
def ndMovePen (bendCosts : Fin 4 → ℚ) (c : PenaltiesL) (cellSize d : ℚ) : ℚ :=
  let PEN : ℚ := 1 / 2
  let diagCost := bendCosts 0 +
    min c.diagonalPen (c.horizontalPen + c.verticalPen + bendCosts 2)
  let vertCost := bendCosts 0 +
    min c.verticalPen (c.horizontalPen + c.diagonalPen + bendCosts 3)
  let horiCost := bendCosts 0 +
    min c.horizontalPen (c.verticalPen + c.diagonalPen + bendCosts 3)
  let penPerGrid := PEN + max diagCost (max vertCost horiCost)
  let gridD := d / cellSize
  gridD * penPerGrid

/-- Following the specification sentence for ndMovePen: "each *Cost is a 90
degree bend penalty plus the smaller of the direct or two-segment detour cost
including a 45 degree bend", read with the specification's own angle
convention (bend-cost index 1 = 45 degrees, index 2 = 90 degrees).  This is
the claimed formula, to be compared against ndMovePen above. -/
def ndMovePenSpecRead (bendCosts : Fin 4 → ℚ) (c : PenaltiesL) (cellSize d : ℚ) : ℚ :=
  let PEN : ℚ := 1 / 2
  let diagCost := bendCosts 2 +
    min c.diagonalPen (c.horizontalPen + c.verticalPen + bendCosts 1)
  let vertCost := bendCosts 2 +
    min c.verticalPen (c.horizontalPen + c.diagonalPen + bendCosts 1)
  let horiCost := bendCosts 2 +
    min c.horizontalPen (c.verticalPen + c.diagonalPen + bendCosts 1)
  (d / cellSize) * (PEN + max diagCost (max vertCost horiCost))

/-- The per-hop budget actually computed by ndMovePen: 0.5 plus the maximum of
the three directional costs, where each directional cost is the index-0 bend
cost plus the smaller of the direct penalty and the two-segment detour penalty
(with the index-2 bend cost for the diagonal direction and the index-3 bend
cost for the vertical and horizontal directions). -/
def penPerHop (bendCosts : Fin 4 → ℚ) (c : PenaltiesL) : ℚ :=
  1 / 2 + max
    (bendCosts 0 + min c.diagonalPen (c.horizontalPen + c.verticalPen + bendCosts 2))
    (max
      (bendCosts 0 + min c.verticalPen (c.horizontalPen + c.diagonalPen + bendCosts 3))
      (bendCosts 0 + min c.horizontalPen (c.verticalPen + c.diagonalPen + bendCosts 3)))

/-! ### The variable-name functions (ILPGridOptimizer::getEdgUseVar,
ILPGridOptimizer::getStatPosVar) -/

/-- Hexadecimal rendering of a pointer value as streamed by operator<< into a
stringstream. -/
def ptrStr (addr : Nat) : String := "0x" ++ String.mk (Nat.toDigits 16 addr)

/-- ILPGridOptimizer::getStatPosVar: "sp(" << gridNode id << "," << comb-node
pointer << ")". -/
def getStatPosVarName (gridId addr : Nat) : String :=
  "sp(" ++ toString gridId ++ "," ++ ptrStr addr ++ ")"

/-- ILPGridOptimizer::getEdgUseVar: "edg(" << from id << "," << to id << ","
<< comb-edge pointer << ")". -/
def getEdgUseVarName (frId toId addr : Nat) : String :=
  "edg(" ++ toString frId ++ "," ++ toString toId ++ "," ++ ptrStr addr ++ ")"

/-! ### Control flow of ILPGridOptimizer::optimize -/

/-- Solver status (shared::optim::SolveType). -/
inductive SolveStatus
  | optim
  | suboptim
  | infeas
deriving DecidableEq

/-- Externally visible actions of ILPGridOptimizer::optimize, in program
order. -/
inductive OptEvent
  | extractStarterEv
  | resetEv
  | crumbleEv
  | buildEv
  | setStarterEv
  | writeMstEv
  | writeMpsEv
  | setParamsEv
  | solveEv
  | releaseEv
  | throwEv (msg : String)
  | extractSolEv
  | returnEv
deriving DecidableEq

/-- The message of the runtime error thrown on an infeasible solve. -/
def infeasMsg : String :=
  "No solution found for ILP problem (most likely because of a time limit)!"

/-- The sequence of actions performed by ILPGridOptimizer::optimize, as a
function of the noSolve flag, whether a path was supplied, and the status
returned by solve(). -/
def optimizeEvents (noSolve pathNonempty : Bool) (status : SolveStatus) : List OptEvent :=
  [.extractStarterEv, .resetEv, .crumbleEv, .buildEv, .setStarterEv] ++
  (if pathNonempty then [.writeMstEv, .writeMpsEv] else []) ++
  (if noSolve then [.releaseEv, .returnEv]
   else [.setParamsEv, .solveEv] ++
     (if status = .infeas then [.releaseEv, .throwEv infeasMsg]
      else [.extractSolEv, .releaseEv, .returnEv]))

/-- Whether the drawing is empty after the given actions: crumble empties it
and only extractSolution repopulates it. -/
def drawingEmptyAfter (evs : List OptEvent) (initEmpty : Bool) : Bool :=
  evs.foldl (fun b ev =>
    match ev with
    | .crumbleEv => true
    | .extractSolEv => false
    | _ => b) initEmpty

/-! ### The grid reset loop at the start of optimize -/

/-- A grid edge with the state touched by the reset loop: the closed and
blocked flags of GridEdgePL and the cost. -/
structure GEdge where
  eid : Nat
  frId : Nat
  toId : Nat
  closed : Bool
  blocked : Bool
  cost : ℚ
deriving DecidableEq

/-- A grid node as seen by the reset loop: id, sink flag, and the ids of its
port nodes. -/
structure GNode where
  nid : Nat
  isSink : Bool
  ports : List Nat
deriving DecidableEq

/-- The effect on one edge of processing one node in the reset loop of
optimize: open and unblock every edge adjacent to the node, then, if the node
is a sink, openTurns / closeSinkFr / closeSinkTo.  Modelled from the spec for
the three basegraph calls whose bodies are outside the embedded files:
openTurns marks the turn (bend) edges between the sink's ports open;
closeSinkFr raises the sink-to-port edges to cost SOFT_INF; closeSinkTo does
the same for the port-to-sink edges. -/
def resetNodeEdge (nd : GNode) (e : GEdge) : GEdge :=
  let e1 := if e.frId = nd.nid ∨ e.toId = nd.nid then
      { e with closed := false, blocked := false } else e
  if nd.isSink then
    let e2 := if e1.frId ∈ nd.ports ∧ e1.toId ∈ nd.ports then
        { e1 with closed := false } else e1
    let e3 := if e2.frId = nd.nid ∧ e2.toId ∈ nd.ports then
        { e2 with cost := SOFT_INF } else e2
    if e3.toId = nd.nid ∧ e3.frId ∈ nd.ports then
        { e3 with cost := SOFT_INF } else e3
  else e1

/-- Processing one node of the reset loop over the whole edge set. -/
def resetNode (es : List GEdge) (nd : GNode) : List GEdge :=
  es.map (resetNodeEdge nd)

/-- The reset loop of optimize: every grid node is processed in order. -/
def resetGridEdges (nds : List GNode) (es : List GEdge) : List GEdge :=
  nds.foldl resetNode es

/-- The cumulative effect of the reset loop on a single edge. -/
def resetEdgeFold (nds : List GNode) (e : GEdge) : GEdge :=
  nds.foldl (fun a nd => resetNodeEdge nd a) e

/-- The claimed post-state of the reset, per sink: all turn (bend) edges
between the sink's ports are closed. -/
def sinkTurnsClosed (nd : GNode) (es : List GEdge) : Bool :=
  es.all (fun e =>
    !(nd.ports.contains e.frId && nd.ports.contains e.toId) || e.closed)

/-! ### createProblem, station-assignment section (rows "oneass", columns
"sp") -/

/-- The grid sinks admitted as candidates for a comb node: the loop over
gg->getNds() with its three continue conditions (not a sink; grid degree below
the comb degree; distance at least cellSize * maxGrDist). -/
def statPosCands (gridNds : List GridNodeL) (cellSize maxGrDist : ℚ)
    (dst : CombNodeL → GridNodeL → ℚ) (nd : CombNodeL) : List GridNodeL :=
  gridNds.filter (fun n =>
    n.isSink && decide (nd.deg ≤ n.deg) &&
      decide (dst nd n < cellSize * maxGrDist))

/-- The row "oneass(nd)" for one comb node: rhs 1, sense FIX, one coefficient-1
term per admitted candidate's sp variable. -/
def oneAssRow (gridNds : List GridNodeL) (cellSize maxGrDist : ℚ)
    (dst : CombNodeL → GridNodeL → ℚ) (nd : CombNodeL) : RowL :=
  { rid := .oneass nd.id, rhs := 1, sense := .fix,
    terms := (statPosCands gridNds cellSize maxGrDist dst nd).map
      (fun n => (VarRef.sp n.id nd.id, (1 : ℚ))) }

/-- The sp columns created for one comb node: binary, objective coefficient
ndMovePen(nd, n). -/
def statPosCols (gridNds : List GridNodeL) (cellSize maxGrDist : ℚ)
    (dst : CombNodeL → GridNodeL → ℚ) (movePen : CombNodeL → GridNodeL → ℚ)
    (nd : CombNodeL) : List ColL :=
  (statPosCands gridNds cellSize maxGrDist dst nd).map
    (fun n => { ref := VarRef.sp n.id nd.id, kind := .bin,
                obj := movePen nd n, lb := none, ub := none })

/-- The rows of the station-assignment section: one oneass row per comb node of
positive degree (degree-0 nodes are skipped by the continue). -/
def assignRows (gridNds : List GridNodeL) (cellSize maxGrDist : ℚ)
    (dst : CombNodeL → GridNodeL → ℚ) (combNds : List CombNodeL) : List RowL :=
  (combNds.filter (fun nd => decide (nd.deg ≠ 0))).map
    (oneAssRow gridNds cellSize maxGrDist dst)

/-- The columns of the station-assignment section. -/
def assignCols (gridNds : List GridNodeL) (cellSize maxGrDist : ℚ)
    (dst : CombNodeL → GridNodeL → ℚ) (movePen : CombNodeL → GridNodeL → ℚ)
    (combNds : List CombNodeL) : List ColL :=
  (combNds.filter (fun nd => decide (nd.deg ≠ 0))).flatMap
    (statPosCols gridNds cellSize maxGrDist dst movePen)

/-! ### createProblem, flow-conservation section (rows "as") -/

/-- The station-position terms of a flow-conservation row: for a sink node,
the -2 term for the from-end and the +1 term for the to-end of the comb edge,
each only when getVarByName finds the variable (oracle has). -/
def flowBaseTerms (has : VarRef → Bool) (n : GridNodeL) (f : CombEdgeL) :
    List (VarRef × ℚ) :=
  if n.isSink then
    (if has (.sp n.id f.frId) then [(VarRef.sp n.id f.frId, (-2 : ℚ))] else []) ++
    (if has (.sp n.id f.toId) then [(VarRef.sp n.id f.toId, (1 : ℚ))] else [])
  else []

/-- The incoming-edge terms of a flow-conservation row, one per in-edge whose
edge-use variable exists, each with coefficient -1 (inCost). -/
def flowInTerms (has : VarRef → Bool) (n : GridNodeL) (f : CombEdgeL) :
    List (VarRef × ℚ) :=
  (n.adjIn.filter (fun e => has (.edgUse e.frId e.toId f.id))).map
    (fun e => (VarRef.edgUse e.frId e.toId f.id, (-1 : ℚ)))

/-- The outgoing-edge terms of a flow-conservation row, one per out-edge whose
edge-use variable exists, each with coefficient outCost (2 for a sink node, 1
otherwise). -/
def flowOutTerms (has : VarRef → Bool) (n : GridNodeL) (f : CombEdgeL) :
    List (VarRef × ℚ) :=
  (n.adjOut.filter (fun e => has (.edgUse e.frId e.toId f.id))).map
    (fun e => (VarRef.edgUse e.frId e.toId f.id,
      if n.isSink then (2 : ℚ) else 1))

/-- The flow-conservation row for one grid node and one comb edge.  The oracle
has models getVarByName: it tells which variable names resolve to a column of
the model built so far.  Terms follow the statement order of the source: for a
sink, the -2 and +1 station-position terms first, then the incoming edges with
coefficient -1, then the outgoing edges with their outCost. -/
def flowRow (has : VarRef → Bool) (n : GridNodeL) (f : CombEdgeL) : RowL :=
  { rid := .flowBal n.id f.id, rhs := 0, sense := .up,
    terms := flowBaseTerms has n f ++ flowInTerms has n f ++ flowOutTerms has n f }

/-- The flow-conservation section: grid nodes whose nonInfDeg is zero are
skipped; every comb edge gets one row per remaining grid node. -/
def flowSection (has : VarRef → Bool) (gridNds : List GridNodeL)
    (combNds : List CombNodeL) : List RowL :=
  (gridNds.filter (fun n => decide (nonInfDeg n ≠ 0))).flatMap
    (fun n => (combEdgesOf combNds).map (flowRow has n))

/-! ### createProblem, circular-ordering section (rows "vc" and "oc", columns
"vuln") -/

/-- The vuln columns of one comb node: one binary, objective-0 column per
incident edge slot. -/
def vulnCols (nd : CombNodeL) : List ColL :=
  (List.range nd.deg).map (fun i =>
    { ref := VarRef.vuln nd.id i, kind := .bin, obj := 0,
      lb := none, ub := none })

/-- The row "vc(nd)": rhs 1, sense FIX, one coefficient-1 term per vuln
column. -/
def vulnRow (nd : CombNodeL) : RowL :=
  { rid := .vulnSum nd.id, rhs := 1, sense := .fix,
    terms := (List.range nd.deg).map (fun i => (VarRef.vuln nd.id i, (1 : ℚ))) }

/-- The row "oc(nd, i)" for slot i of the circular edge ordering: rhs 1, sense
LO, with terms d(nd, edgB) + 1, d(nd, edgA) - 1 and vuln(nd, i) + maxDeg,
where edgB is the i-th ordered edge and edgA its predecessor (the last ordered
edge when i = 0). -/
def ordRow (nd : CombNodeL) (i : Nat) : RowL :=
  let edgA := if i = 0 then nd.order.getLastD 0 else nd.order.getD (i - 1) 0
  let edgB := nd.order.getD i 0
  { rid := .ordC nd.id i, rhs := 1, sense := .lo,
    terms := [(VarRef.dir nd.id edgB, (1 : ℚ)),
              (VarRef.dir nd.id edgA, (-1 : ℚ)),
              (VarRef.vuln nd.id i, (maxDeg : ℚ))] }

/-- The ordering rows of one comb node, one per slot of the ordered set. -/
def ordRows (nd : CombNodeL) : List RowL :=
  (List.range nd.order.length).map (ordRow nd)

/-- The rows of the circular-ordering section: nodes of degree below 3 are
skipped; each remaining node contributes its vc row followed by its oc rows. -/
def ordSectionRows (combNds : List CombNodeL) : List RowL :=
  (combNds.filter (fun nd => decide (3 ≤ nd.deg))).flatMap
    (fun nd => vulnRow nd :: ordRows nd)

/-- The columns of the circular-ordering section. -/
def ordSectionCols (combNds : List CombNodeL) : List ColL :=
  (combNds.filter (fun nd => decide (3 ≤ nd.deg))).flatMap vulnCols

/-! ### createProblem, bend-angle section (rows "nc..lo", "nc..up", "ac",
"asc"; columns "negdist" and the angle buckets) -/

/-- The number of lines shared by the front children of two comb edges (the
loop over getLines with the hasLine membership test). -/
def sharedLinesCount (a b : CombEdgeL) : Nat :=
  (a.lines.filter (fun l => decide (l ∈ b.lines))).length

/-- The objective coefficient of the angle-bucket column created at loop index
k: pens[pens.size() - 1 - k] for k below pens.size(), pens[k + 1 - pens.size()]
otherwise. -/
def bucketObj (pens : List ℚ) (k : Nat) : ℚ :=
  if k < pens.length then pens.getD (pens.length - 1 - k) 0
  else pens.getD (k + 1 - pens.length) 0

/-- The columns created for one adjacent comb-edge pair sharing a line: the
binary negdist column, then one binary bucket column per loop index
k < maxDeg - 1 with objective coefficient bucketObj. -/
def pairCols (pens : List ℚ) (a b : CombEdgeL) : List ColL :=
  { ref := VarRef.negdist a.id b.id, kind := .bin, obj := 0,
    lb := none, ub := none } ::
  (List.range (maxDeg - 1)).map (fun k =>
    { ref := VarRef.bucket a.id b.id k, kind := .bin, obj := bucketObj pens k,
      lb := none, ub := none })

/-- The rows created for one adjacent comb-edge pair sharing a line, in
emission order: the lower and upper wrap rows on d(nd, a) - d(nd, b) +
maxDeg * negdist, the fixed angle-sum row (with the bucket terms at
coefficient -(k + 1)), and the at-most-one-bucket row. -/
def pairRows (ndId : Nat) (a b : CombEdgeL) : List RowL :=
  [ { rid := .ncLo a.id b.id, rhs := 0, sense := .lo,
      terms := [(VarRef.dir ndId a.id, (1 : ℚ)),
                (VarRef.dir ndId b.id, (-1 : ℚ)),
                (VarRef.negdist a.id b.id, (maxDeg : ℚ))] },
    { rid := .ncUp a.id b.id, rhs := (maxDeg : ℚ) - 1, sense := .up,
      terms := [(VarRef.dir ndId a.id, (1 : ℚ)),
                (VarRef.dir ndId b.id, (-1 : ℚ)),
                (VarRef.negdist a.id b.id, (maxDeg : ℚ))] },
    { rid := .acR a.id b.id, rhs := 0, sense := .fix,
      terms := [(VarRef.dir ndId a.id, (1 : ℚ)),
                (VarRef.dir ndId b.id, (-1 : ℚ)),
                (VarRef.negdist a.id b.id, (maxDeg : ℚ))] ++
        (List.range (maxDeg - 1)).map (fun k =>
          (VarRef.bucket a.id b.id k, -((k : ℚ) + 1))) },
    { rid := .ascR a.id b.id, rhs := 1, sense := .up,
      terms := (List.range (maxDeg - 1)).map (fun k =>
        (VarRef.bucket a.id b.id k, (1 : ℚ))) } ]

/-- The adjacent pairs of one comb node that are processed by the bend-angle
section: the i < j double loop over the adjacency list, keeping only pairs
whose front children share at least one line. -/
def anglePairs (nd : CombNodeL) : List (CombEdgeL × CombEdgeL) :=
  (pairsUpper nd.adj).filter (fun p => decide (sharedLinesCount p.1 p.2 ≠ 0))

/-- The rows of the bend-angle section. -/
def angleSectionRows (combNds : List CombNodeL) : List RowL :=
  combNds.flatMap (fun nd =>
    (anglePairs nd).flatMap (fun p => pairRows nd.id p.1 p.2))

/-- The columns of the bend-angle section. -/
def angleSectionCols (pens : List ℚ) (combNds : List CombNodeL) : List ColL :=
  combNds.flatMap (fun nd =>
    (anglePairs nd).flatMap (fun p => pairCols pens p.1 p.2))

/-- Whether a variable reference is a vuln variable of the given comb node. -/
def VarRef.isVulnOf : VarRef → Nat → Bool
  | .vuln m _, nid => decide (m = nid)
  | _, _ => false

/-! ### Concrete sample instances used to instantiate the theorems -/

/-- A sample bend-cost table (straight 0, then the three decreasing bend
penalty levels as indexed by the source). -/
def bcX : Fin 4 → ℚ := fun k => [(0 : ℚ), 3, 2, 1].getD k.val 0

/-- A sample direction-penalty configuration. -/
def cX : PenaltiesL := ⟨3 / 2, 1, 1⟩

/-- A sample comb edge. -/
def cEdgeF : CombEdgeL := ⟨100, 10, 11, [7]⟩

/-- A sample comb node, the from-end of cEdgeF. -/
def cNodeA : CombNodeL := ⟨10, [cEdgeF], [100]⟩

/-- A sample comb node, the to-end of cEdgeF. -/
def cNodeB : CombNodeL := ⟨11, [cEdgeF], [100]⟩

/-- A sample grid edge into the sample sink. -/
def gEdgeIn1 : GridEdgeL := ⟨5, 0, 1⟩

/-- A sample grid edge out of the sample sink. -/
def gEdgeOut1 : GridEdgeL := ⟨0, 5, 1⟩

/-- A sample sink grid node. -/
def gNode1 : GridNodeL := ⟨0, true, [gEdgeIn1], [gEdgeOut1]⟩

/-- A sample port grid node. -/
def gPort1 : GridNodeL := ⟨5, false, [gEdgeOut1], [gEdgeIn1]⟩

/-- The sample grid-node list. -/
def gridNds1 : List GridNodeL := [gNode1, gPort1]

/-- The sample comb-node list for the flow and assignment sections. -/
def combNds1 : List CombNodeL := [cNodeA, cNodeB]

/-- Sample comb edges of a degree-3 node. -/
def cEdgeP : CombEdgeL := ⟨1, 20, 21, [4]⟩

/-- Second sample comb edge of the degree-3 node. -/
def cEdgeQ : CombEdgeL := ⟨2, 20, 22, [4]⟩

/-- Third sample comb edge of the degree-3 node. -/
def cEdgeR : CombEdgeL := ⟨3, 20, 23, [9]⟩

/-- A sample comb node of degree 3. -/
def cNodeD3 : CombNodeL := ⟨20, [cEdgeP, cEdgeQ, cEdgeR], [1, 2, 3]⟩

/-- The sample comb-node list for the circular-ordering section. -/
def combNds2 : List CombNodeL := [cNodeD3]

/-- A sample penalty vector as returned by getCosts (four levels). -/
def pens4 : List ℚ := [0, 1, 2, 3]

/-- A sample comb edge sharing line 7 with cEdgeB3. -/
def cEdgeA3 : CombEdgeL := ⟨1, 10, 11, [7]⟩

/-- A sample comb edge sharing line 7 with cEdgeA3. -/
def cEdgeB3 : CombEdgeL := ⟨2, 10, 12, [7]⟩

/-- The shared node of cEdgeA3 and cEdgeB3. -/
def cNodeAng : CombNodeL := ⟨10, [cEdgeA3, cEdgeB3], [1, 2]⟩

/-- The sample comb-node list for the bend-angle section. -/
def combNds3 : List CombNodeL := [cNodeAng]

/-- A sample sink node for the reset loop, with two ports. -/
def sinkNd6 : GNode := ⟨0, true, [1, 2]⟩

/-- First sample port node for the reset loop. -/
def portNd6a : GNode := ⟨1, false, []⟩

/-- Second sample port node for the reset loop. -/
def portNd6b : GNode := ⟨2, false, []⟩

/-- The sample node list for the reset loop. -/
def nds6 : List GNode := [sinkNd6, portNd6a, portNd6b]

/-- A sample bend edge (between the two ports), initially closed. -/
def bendE6 : GEdge := ⟨0, 1, 2, true, true, 3⟩

/-- A sample sink-to-port edge, initially open and cheap. -/
def sinkFrE6 : GEdge := ⟨1, 0, 1, false, false, 0⟩

/-- The sample edge list for the reset loop. -/
def es6 : List GEdge := [bendE6, sinkFrE6]

/-! ## Helper lemmas -/

theorem filter_nil_of_false {β : Type} (p : β → Bool) :
    ∀ l : List β, (∀ x ∈ l, p x = false) → l.filter p = [] := by
  intro l
  induction l with
  | nil => intro _; rfl
  | cons b t ih =>
    intro h
    simp [List.filter_cons, h b (List.mem_cons_self b t),
      ih (fun x hx => h x (List.mem_cons_of_mem _ hx))]

theorem filter_self_of_true {β : Type} (p : β → Bool) :
    ∀ l : List β, (∀ x ∈ l, p x = true) → l.filter p = l := by
  intro l
  induction l with
  | nil => intro _; rfl
  | cons b t ih =>
    intro h
    simp [List.filter_cons, h b (List.mem_cons_self b t),
      ih (fun x hx => h x (List.mem_cons_of_mem _ hx))]

theorem filter_flatMap_nil {α β : Type} (l : List α) (g : α → List β) (p : β → Bool)
    (h : ∀ b ∈ l, (g b).filter p = []) : (l.flatMap g).filter p = [] := by
  induction l with
  | nil => rfl
  | cons b t ih =>
    simp only [List.flatMap_cons, List.filter_append]
    rw [h b (List.mem_cons_self b t),
      ih (fun x hx => h x (List.mem_cons_of_mem _ hx)), List.nil_append]

theorem filter_flatMap_single {α β : Type} (l : List α) (q : α → Bool)
    (g : α → List β) (p : β → Bool) (a : α) (ha : a ∈ l) (hnd : l.Nodup)
    (hq : q a = true) (hother : ∀ b ∈ l, b ≠ a → (g b).filter p = []) :
    ((l.filter q).flatMap g).filter p = (g a).filter p := by
  induction l with
  | nil => cases ha
  | cons b t ih =>
    rcases List.mem_cons.mp ha with hba | hat
    · subst hba
      have hnt : a ∉ t := (List.nodup_cons.mp hnd).1
      have htail : ((t.filter q).flatMap g).filter p = [] := by
        apply filter_flatMap_nil
        intro c hc
        exact hother c (List.mem_cons_of_mem _ (List.mem_of_mem_filter hc))
          (fun hca => hnt (hca ▸ List.mem_of_mem_filter hc))
      simp only [List.filter_cons, hq, if_pos, List.flatMap_cons,
        List.filter_append, htail, List.append_nil]
    · have hb : b ≠ a := by
        rintro rfl
        exact (List.nodup_cons.mp hnd).1 hat
      have ih2 := ih hat (List.nodup_cons.mp hnd).2
        (fun c hc hca => hother c (List.mem_cons_of_mem _ hc) hca)
      by_cases hqb : q b = true
      · simp only [List.filter_cons, hqb, if_pos, List.flatMap_cons,
          List.filter_append, hother b (List.mem_cons_self b t) hb,
          List.nil_append]
        exact ih2
      · rw [List.filter_cons, if_neg hqb]
        exact ih2

theorem filter_map_eq_single {α β : Type} (l : List α) (g : α → β) (p : β → Bool)
    (a : α) (ha : a ∈ l) (hnd : l.Nodup) (hpa : p (g a) = true)
    (hother : ∀ b ∈ l, b ≠ a → p (g b) = false) :
    (l.map g).filter p = [g a] := by
  induction l with
  | nil => cases ha
  | cons b t ih =>
    rcases List.mem_cons.mp ha with hba | hat
    · subst hba
      have hnt : a ∉ t := (List.nodup_cons.mp hnd).1
      have htail : (t.map g).filter p = [] := by
        apply filter_nil_of_false
        intro x hx
        obtain ⟨c, hcmem, rfl⟩ := List.mem_map.mp hx
        exact hother c (List.mem_cons_of_mem _ hcmem)
          (fun hca => hnt (hca ▸ hcmem))
      simp [List.filter_cons, hpa, htail]
    · have hb : b ≠ a := by
        rintro rfl
        exact (List.nodup_cons.mp hnd).1 hat
      have ih2 := ih hat (List.nodup_cons.mp hnd).2
        (fun c hc hca => hother c (List.mem_cons_of_mem _ hc) hca)
      simp [List.filter_cons, hother b (List.mem_cons_self b t) hb, ih2]

theorem filter_filter_map_single {α β : Type} (l : List α) (q : α → Bool)
    (g : α → β) (p : β → Bool) (a : α) (ha : a ∈ l) (hnd : l.Nodup)
    (hq : q a = true) (hpa : p (g a) = true)
    (hother : ∀ b ∈ l, b ≠ a → p (g b) = false) :
    ((l.filter q).map g).filter p = [g a] := by
  apply filter_map_eq_single
  · exact List.mem_filter.mpr ⟨ha, hq⟩
  · exact hnd.filter q
  · exact hpa
  · intro b hb hba
    exact hother b (List.mem_of_mem_filter hb) hba

theorem ang_lt_four (i j : Nat) : ang i j < 4 :=
  Nat.mod_lt _ (by norm_num)

theorem ang_symm_lt8 : ∀ i, i < 8 → ∀ j, j < 8 → ang i j = ang j i := by decide

theorem getBendPen_symm (bendCosts : Fin 4 → ℚ) (i j : Nat)
    (hi : i < 8) (hj : j < 8) : getBendPen bendCosts i j = getBendPen bendCosts j i := by
  unfold getBendPen
  exact congrArg bendCosts (Fin.ext (ang_symm_lt8 i hi j hj))

theorem mem_pairsUpper_range8 :
    ∀ i, i < 8 → ∀ j, j < 8 → j ≤ i ∨ (i, j) ∈ pairsUpper (List.range 8) := by decide

/-! ## Claim C10 -/

/-- Claim C10: for all port directions i, j in 0..7, the signed "deg" formula
and the unsigned wrap-around "ang" formula inside OctiHananGraph::ang agree
(so the assert never fails); the result is symmetric, always below 4, and
opposite ports (differing by 4) map to 0. -/
theorem ang_assert_and_range :
    ∀ i, i < 8 → ∀ j, j < 8 →
      angDegFormula i j = ang i j ∧ ang i j = ang j i ∧ ang i j < 4 ∧
      ((i = j + 4 ∨ j = i + 4) → ang i j = 0) := by decide

/-- Witness for C10 at the concrete ports 0 and 3. -/
theorem ang_assert_and_range_witness :
    angDegFormula 0 3 = ang 0 3 ∧ ang 0 3 = ang 3 0 ∧ ang 0 3 < 4 ∧
      ((0 = 3 + 4 ∨ 3 = 0 + 4) → ang 0 3 = 0) :=
  ang_assert_and_range 0 (by decide) 3 (by decide)

/-! ## Claim C7 -/

/-- Counterexample for claim C7 as stated: the turn angle ang(i, j) of two
distinct ports does not always lie in the set 0, 1, 2 claimed by the spec:
for the distinct ports 0 and 3 it is 3. -/
theorem bend_ang_range_counterexample :
    (0 : Nat) ≠ 3 ∧ ang 0 3 = 3 ∧
      ¬(ang 0 3 = 0 ∨ ang 0 3 = 1 ∨ ang 0 3 = 2) := by decide

/-- Claim C7, amended: within every sink node written at an interior cell
(not on the grid border), for every pair of distinct ports i and j there are
two directed bend edges, one per direction, each carrying a cost equal to the
configured bend penalty for the turn angle ang(i, j), which lies in
0, 1, 2, 3 (at border cells some of these costs are overridden to INF
instead). -/
theorem writeNd_bend_edges_interior (bendCosts : Fin 4 → ℚ) (W H x y i j : Nat)
    (hx0 : 0 < x) (hxW : x < W - 1) (hy0 : 0 < y) (hyH : y < H - 1)
    (hi : i < 8) (hj : j < 8) (hij : i ≠ j) :
    BendEdgeL.mk i j (ECost.fin (getBendPen bendCosts i j)) ∈
        writeNdBendEdges bendCosts W H x y ∧
    BendEdgeL.mk j i (ECost.fin (getBendPen bendCosts i j)) ∈
        writeNdBendEdges bendCosts W H x y ∧
    ang i j < 4 := by
  have hxne : x ≠ 0 := by omega
  have hxne2 : x ≠ W - 1 := by omega
  have hyne : y ≠ 0 := by omega
  have hyne2 : y ≠ H - 1 := by omega
  have main : ∀ a b : Nat, a < b → b < 8 →
      BendEdgeL.mk a b (ECost.fin (getBendPen bendCosts a b)) ∈
          writeNdBendEdges bendCosts W H x y ∧
      BendEdgeL.mk b a (ECost.fin (getBendPen bendCosts a b)) ∈
          writeNdBendEdges bendCosts W H x y := by
    intro a b hab hb
    have hmem : (a, b) ∈ pairsUpper (List.range 8) := by
      rcases mem_pairsUpper_range8 a (by omega) b hb with h | h
      · omega
      · exact h
    constructor
    · apply List.mem_flatMap.mpr
      refine ⟨(a, b), hmem, ?_⟩
      simp [maxDeg, hxne, hxne2, hyne, hyne2]
    · apply List.mem_flatMap.mpr
      refine ⟨(a, b), hmem, ?_⟩
      simp [maxDeg, hxne, hxne2, hyne, hyne2]
  rcases Nat.lt_or_ge i j with hlt | hge
  · obtain ⟨h1, h2⟩ := main i j hlt hj
    exact ⟨h1, h2, ang_lt_four i j⟩
  · have hlt : j < i := by omega
    obtain ⟨h1, h2⟩ := main j i hlt hi
    rw [getBendPen_symm bendCosts i j hi hj]
    exact ⟨h2, h1, ang_lt_four i j⟩

/-- Witness for the amended C7 at a 3-by-3 grid, interior cell (1, 1), ports
0 and 3. -/
theorem writeNd_bend_edges_interior_witness :
    BendEdgeL.mk 0 3 (ECost.fin (getBendPen bcX 0 3)) ∈
        writeNdBendEdges bcX 3 3 1 1 ∧
    BendEdgeL.mk 3 0 (ECost.fin (getBendPen bcX 0 3)) ∈
        writeNdBendEdges bcX 3 3 1 1 ∧
    ang 0 3 < 4 :=
  writeNd_bend_edges_interior bcX 3 3 1 1 0 3 (by decide) (by decide)
    (by decide) (by decide) (by decide) (by decide) (by decide)

/-! ## Claim C8 -/

/-- Counterexample for claim C8 as stated: at concrete penalties the
ndMovePen of the source differs from the claimed decomposition (a 90-degree
bend penalty plus min of direct and detour-with-45-degree-bend for every
direction).  The source adds the index-0 (straight) bend cost instead, and
its detours use the index-2 cost for the diagonal direction and the index-3
cost for the vertical and horizontal ones. -/
theorem ndMovePen_spec_counterexample :
    ndMovePen bcX cX 1 1 ≠ ndMovePenSpecRead bcX cX 1 1 := by
  norm_num [ndMovePen, ndMovePenSpecRead, bcX, cX]

/-- Claim C8, amended: ndMovePen returns the distance between the two nodes
divided by cellSize, multiplied by penPerHop = 0.5 + max(diagCost,
max(vertCost, horiCost)), where each directional cost is the index-0
(straight) bend cost plus the smaller of the direct penalty and the
two-segment detour penalty, the detour including the index-2 bend cost for
the diagonal direction and the index-3 bend cost for the vertical and
horizontal directions. -/
theorem ndMovePen_formula (bendCosts : Fin 4 → ℚ) (c : PenaltiesL)
    (cellSize d : ℚ) :
    ndMovePen bendCosts c cellSize d = (d / cellSize) * penPerHop bendCosts c := rfl

/-! ## Claim C5 -/

/-- Counterexample for claim C5 as stated: the emitted variable names do
depend on run-to-run data.  getStatPosVar streams the comb-node pointer into
the name, so the same grid node and the same logical comb node produce
different names when the comb node lives at a different address. -/
theorem statpos_name_addr_counterexample :
    getStatPosVarName 0 1 ≠ getStatPosVarName 0 2 := by decide

/-- Claim C5, amended: model construction is deterministic only up to the
memory addresses of the comb nodes and comb edges.  getStatPosVar and
getEdgUseVar stream the raw pointers into the variable names, so the names
(and hence the written MPS file) embed those addresses and coincide between
two runs only when all the addresses coincide. -/
theorem ilp_var_names_embed_addresses :
    getStatPosVarName 7 4096 ≠ getStatPosVarName 7 4097 ∧
    getEdgUseVarName 3 5 4096 ≠ getEdgUseVarName 3 5 4097 ∧
    getStatPosVarName 7 4096 = "sp(7,0x1000)" ∧
    getEdgUseVarName 3 5 4097 = "edg(3,5,0x1001)" := by decide

/-! ## Claim C9 -/

/-- Claim C9: when solve() reports INF (and noSolve is off), optimize releases
the solver handle and then fails with the human-readable runtime error; it
never decodes a solution and never reaches the normal return, and since the
drawing was crumbled before the build and extractSolution is not executed,
the drawing is left empty. -/
theorem infeasible_solve_path (noSolve pathNe : Bool) (st : SolveStatus)
    (b : Bool) (hns : noSolve = false) (hst : st = .infeas) :
    (∃ pre, optimizeEvents noSolve pathNe st =
        pre ++ [.releaseEv, .throwEv infeasMsg]) ∧
    OptEvent.extractSolEv ∉ optimizeEvents noSolve pathNe st ∧
    OptEvent.returnEv ∉ optimizeEvents noSolve pathNe st ∧
    OptEvent.crumbleEv ∈ optimizeEvents noSolve pathNe st ∧
    drawingEmptyAfter (optimizeEvents noSolve pathNe st) b = true := by
  subst hns hst
  cases pathNe <;> cases b
  · exact ⟨⟨[.extractStarterEv, .resetEv, .crumbleEv, .buildEv, .setStarterEv,
      .setParamsEv, .solveEv], by decide⟩, by decide, by decide, by decide, by decide⟩
  · exact ⟨⟨[.extractStarterEv, .resetEv, .crumbleEv, .buildEv, .setStarterEv,
      .setParamsEv, .solveEv], by decide⟩, by decide, by decide, by decide, by decide⟩
  · exact ⟨⟨[.extractStarterEv, .resetEv, .crumbleEv, .buildEv, .setStarterEv,
      .writeMstEv, .writeMpsEv, .setParamsEv, .solveEv], by decide⟩,
      by decide, by decide, by decide, by decide⟩
  · exact ⟨⟨[.extractStarterEv, .resetEv, .crumbleEv, .buildEv, .setStarterEv,
      .writeMstEv, .writeMpsEv, .setParamsEv, .solveEv], by decide⟩,
      by decide, by decide, by decide, by decide⟩

/-- Witness for C9 with no output path and an initially nonempty drawing. -/
theorem infeasible_solve_path_witness :
    (∃ pre, optimizeEvents false false .infeas =
        pre ++ [.releaseEv, .throwEv infeasMsg]) ∧
    OptEvent.extractSolEv ∉ optimizeEvents false false .infeas ∧
    OptEvent.returnEv ∉ optimizeEvents false false .infeas ∧
    OptEvent.crumbleEv ∈ optimizeEvents false false .infeas ∧
    drawingEmptyAfter (optimizeEvents false false .infeas) false = true :=
  infeasible_solve_path false false .infeas false rfl rfl

/-! ## Claim C6 -/

theorem resetNodeEdge_eq (nd : GNode) (e : GEdge) :
    resetNodeEdge nd e =
      { e with
        closed := if (e.frId = nd.nid ∨ e.toId = nd.nid) ∨
            (nd.isSink = true ∧ e.frId ∈ nd.ports ∧ e.toId ∈ nd.ports)
          then false else e.closed,
        blocked := if e.frId = nd.nid ∨ e.toId = nd.nid then false else e.blocked,
        cost := if nd.isSink = true ∧
            ((e.frId = nd.nid ∧ e.toId ∈ nd.ports) ∨
             (e.toId = nd.nid ∧ e.frId ∈ nd.ports))
          then SOFT_INF else e.cost } := by
  unfold resetNodeEdge
  dsimp only
  split_ifs <;>
    simp_all [apply_ite GEdge.frId, apply_ite GEdge.toId, apply_ite GEdge.closed,
      apply_ite GEdge.blocked, apply_ite GEdge.cost, apply_ite GEdge.eid] <;>
    tauto

theorem resetNodeEdge_frId (nd : GNode) (e : GEdge) :
    (resetNodeEdge nd e).frId = e.frId := by rw [resetNodeEdge_eq]

theorem resetNodeEdge_toId (nd : GNode) (e : GEdge) :
    (resetNodeEdge nd e).toId = e.toId := by rw [resetNodeEdge_eq]

theorem resetNodeEdge_closed_mono (nd : GNode) (e : GEdge) (h : e.closed = false) :
    (resetNodeEdge nd e).closed = false := by
  rw [resetNodeEdge_eq]
  dsimp only
  split <;> simp [h]

theorem resetNodeEdge_blocked_mono (nd : GNode) (e : GEdge) (h : e.blocked = false) :
    (resetNodeEdge nd e).blocked = false := by
  rw [resetNodeEdge_eq]
  dsimp only
  split <;> simp [h]

theorem resetNodeEdge_cost_mono (nd : GNode) (e : GEdge) (h : e.cost = SOFT_INF) :
    (resetNodeEdge nd e).cost = SOFT_INF := by
  rw [resetNodeEdge_eq]
  dsimp only
  split <;> simp [h]

theorem resetNodeEdge_opens (nd : GNode) (e : GEdge)
    (hadj : e.frId = nd.nid ∨ e.toId = nd.nid) :
    (resetNodeEdge nd e).closed = false ∧ (resetNodeEdge nd e).blocked = false := by
  rw [resetNodeEdge_eq]
  exact ⟨by simp [Or.inl hadj], by simp [hadj]⟩

theorem resetNodeEdge_sink_cost (nd : GNode) (e : GEdge) (hs : nd.isSink = true)
    (hcase : (e.frId = nd.nid ∧ e.toId ∈ nd.ports) ∨
      (e.toId = nd.nid ∧ e.frId ∈ nd.ports)) :
    (resetNodeEdge nd e).cost = SOFT_INF := by
  rw [resetNodeEdge_eq]
  simp [hs, hcase]

theorem resetEdgeFold_cons (nd : GNode) (t : List GNode) (e : GEdge) :
    resetEdgeFold (nd :: t) e = resetEdgeFold t (resetNodeEdge nd e) := rfl

theorem resetEdgeFold_frId : ∀ (nds : List GNode) (e : GEdge),
    (resetEdgeFold nds e).frId = e.frId := by
  intro nds
  induction nds with
  | nil => intro e; rfl
  | cons nd t ih =>
    intro e
    rw [resetEdgeFold_cons, ih, resetNodeEdge_frId]

theorem resetEdgeFold_toId : ∀ (nds : List GNode) (e : GEdge),
    (resetEdgeFold nds e).toId = e.toId := by
  intro nds
  induction nds with
  | nil => intro e; rfl
  | cons nd t ih =>
    intro e
    rw [resetEdgeFold_cons, ih, resetNodeEdge_toId]

theorem resetEdgeFold_closed_mono : ∀ (nds : List GNode) (e : GEdge),
    e.closed = false → (resetEdgeFold nds e).closed = false := by
  intro nds
  induction nds with
  | nil => intro e h; exact h
  | cons nd t ih =>
    intro e h
    rw [resetEdgeFold_cons]
    exact ih _ (resetNodeEdge_closed_mono nd e h)

theorem resetEdgeFold_blocked_mono : ∀ (nds : List GNode) (e : GEdge),
    e.blocked = false → (resetEdgeFold nds e).blocked = false := by
  intro nds
  induction nds with
  | nil => intro e h; exact h
  | cons nd t ih =>
    intro e h
    rw [resetEdgeFold_cons]
    exact ih _ (resetNodeEdge_blocked_mono nd e h)

theorem resetEdgeFold_cost_mono : ∀ (nds : List GNode) (e : GEdge),
    e.cost = SOFT_INF → (resetEdgeFold nds e).cost = SOFT_INF := by
  intro nds
  induction nds with
  | nil => intro e h; exact h
  | cons nd t ih =>
    intro e h
    rw [resetEdgeFold_cons]
    exact ih _ (resetNodeEdge_cost_mono nd e h)

theorem resetEdgeFold_opens (m : GNode) : ∀ (nds : List GNode) (e : GEdge),
    m ∈ nds → (e.frId = m.nid ∨ e.toId = m.nid) →
    (resetEdgeFold nds e).closed = false ∧ (resetEdgeFold nds e).blocked = false := by
  intro nds
  induction nds with
  | nil => intro e hm; cases hm
  | cons nd t ih =>
    intro e hm hadj
    rw [resetEdgeFold_cons]
    rcases List.mem_cons.mp hm with rfl | hmt
    · obtain ⟨h1, h2⟩ := resetNodeEdge_opens m e hadj
      exact ⟨resetEdgeFold_closed_mono t _ h1, resetEdgeFold_blocked_mono t _ h2⟩
    · have hadj2 : (resetNodeEdge nd e).frId = m.nid ∨
          (resetNodeEdge nd e).toId = m.nid := by
        rw [resetNodeEdge_frId, resetNodeEdge_toId]
        exact hadj
      exact ih _ hmt hadj2

theorem resetEdgeFold_sink_cost (m : GNode) : ∀ (nds : List GNode) (e : GEdge),
    m ∈ nds → m.isSink = true →
    ((e.frId = m.nid ∧ e.toId ∈ m.ports) ∨ (e.toId = m.nid ∧ e.frId ∈ m.ports)) →
    (resetEdgeFold nds e).cost = SOFT_INF := by
  intro nds
  induction nds with
  | nil => intro e hm; cases hm
  | cons nd t ih =>
    intro e hm hs hcase
    rw [resetEdgeFold_cons]
    rcases List.mem_cons.mp hm with rfl | hmt
    · exact resetEdgeFold_cost_mono t _ (resetNodeEdge_sink_cost m e hs hcase)
    · have hcase2 : ((resetNodeEdge nd e).frId = m.nid ∧
          (resetNodeEdge nd e).toId ∈ m.ports) ∨
          ((resetNodeEdge nd e).toId = m.nid ∧
          (resetNodeEdge nd e).frId ∈ m.ports) := by
        rw [resetNodeEdge_frId, resetNodeEdge_toId]
        exact hcase
      exact ih _ hmt hs hcase2

theorem resetGridEdges_eq_map : ∀ (nds : List GNode) (es : List GEdge),
    resetGridEdges nds es = es.map (resetEdgeFold nds) := by
  intro nds
  induction nds with
  | nil =>
    intro es
    show es = es.map (resetEdgeFold [])
    rw [show resetEdgeFold ([] : List GNode) = fun e => e from rfl, List.map_id']
  | cons nd t ih =>
    intro es
    show resetGridEdges t (resetNode es nd) = _
    rw [ih (resetNode es nd)]
    simp only [resetNode, List.map_map]
    rfl

/-- Counterexample for claim C6 as stated: after the reset loop of optimize
the sink is not closed for turns.  The loop calls openTurns, so the bend edge
between the sink's ports (initially closed here) ends up open. -/
theorem reset_turns_counterexample :
    sinkTurnsClosed sinkNd6 (resetGridEdges nds6 es6) = false := by decide

/-- Claim C6, amended: after the warm-start extraction and before the ILP
build, the reset loop of optimize leaves every grid edge open and unblocked,
leaves every sink node opened for turns (its port-to-port bend edges are
open, like every other edge), and closes the sink-from and sink-to edges of
every sink by raising their cost to SOFT_INF; candidate sinks are only
re-opened afterwards, by openSinkFr and openSinkTo during model
construction. -/
theorem reset_loop_state (nds : List GNode) (es : List GEdge) (e : GEdge)
    (nd : GNode) (he : e ∈ es)
    (hadj : ∃ m ∈ nds, e.frId = m.nid ∨ e.toId = m.nid)
    (hnd : nd ∈ nds) (hsink : nd.isSink = true) :
    resetGridEdges nds es = es.map (resetEdgeFold nds) ∧
    resetEdgeFold nds e ∈ resetGridEdges nds es ∧
    (resetEdgeFold nds e).closed = false ∧
    (resetEdgeFold nds e).blocked = false ∧
    (e.frId = nd.nid ∧ e.toId ∈ nd.ports →
      (resetEdgeFold nds e).cost = SOFT_INF) ∧
    (e.toId = nd.nid ∧ e.frId ∈ nd.ports →
      (resetEdgeFold nds e).cost = SOFT_INF) := by
  obtain ⟨m, hm, hma⟩ := hadj
  refine ⟨resetGridEdges_eq_map nds es, ?_, ?_, ?_, ?_, ?_⟩
  · rw [resetGridEdges_eq_map]
    exact List.mem_map_of_mem _ he
  · exact (resetEdgeFold_opens m nds e hm hma).1
  · exact (resetEdgeFold_opens m nds e hm hma).2
  · intro hc
    exact resetEdgeFold_sink_cost nd nds e hnd hsink (Or.inl hc)
  · intro hc
    exact resetEdgeFold_sink_cost nd nds e hnd hsink (Or.inr hc)

/-- Witness for the amended C6 on the sample grid: the sink-to-port edge ends
up open, unblocked, and at cost SOFT_INF. -/
theorem reset_loop_state_witness :
    resetGridEdges nds6 es6 = es6.map (resetEdgeFold nds6) ∧
    resetEdgeFold nds6 sinkFrE6 ∈ resetGridEdges nds6 es6 ∧
    (resetEdgeFold nds6 sinkFrE6).closed = false ∧
    (resetEdgeFold nds6 sinkFrE6).blocked = false ∧
    (sinkFrE6.frId = sinkNd6.nid ∧ sinkFrE6.toId ∈ sinkNd6.ports →
      (resetEdgeFold nds6 sinkFrE6).cost = SOFT_INF) ∧
    (sinkFrE6.toId = sinkNd6.nid ∧ sinkFrE6.frId ∈ sinkNd6.ports →
      (resetEdgeFold nds6 sinkFrE6).cost = SOFT_INF) :=
  reset_loop_state nds6 es6 sinkFrE6 sinkNd6 (by decide)
    ⟨sinkNd6, by decide, by decide⟩ (by decide) (by decide)

/-! ## Claim C4 -/

theorem statPosCands_eq_filter (gridNds : List GridNodeL) (cellSize maxGrDist : ℚ)
    (dst : CombNodeL → GridNodeL → ℚ) (nd : CombNodeL) :
    statPosCands gridNds cellSize maxGrDist dst nd =
      gridNds.filter (fun g => decide (g.isSink = true ∧ nd.deg ≤ g.deg ∧
        dst nd g < cellSize * maxGrDist)) := by
  unfold statPosCands
  apply List.filter_congr
  intro g _
  by_cases h1 : g.isSink = true <;> by_cases h2 : nd.deg ≤ g.deg <;>
    by_cases h3 : dst nd g < cellSize * maxGrDist <;> simp [h1, h2, h3]

/-- Claim C4: for every comb node nd of positive degree, the station-assignment
section emits exactly one equality row with right-hand side 1 whose terms are
precisely the coefficient-1 station-position variables sp(g, nd) of the
admitted candidates, namely the grid sinks g with deg(nd) <= deg(g) and
dist(nd, g) < cellSize * maxGrDist; all sp columns are binary; comb nodes of
degree 0 get no such row and no sp variables. -/
theorem unique_station_row (gridNds : List GridNodeL) (cellSize maxGrDist : ℚ)
    (dst : CombNodeL → GridNodeL → ℚ) (movePen : CombNodeL → GridNodeL → ℚ)
    (combNds : List CombNodeL) (nd : CombNodeL)
    (hnd : (combNds.map CombNodeL.id).Nodup) (hmem : nd ∈ combNds) :
    (0 < nd.deg →
      (assignRows gridNds cellSize maxGrDist dst combNds).filter
          (fun r => decide (r.rid = RowId.oneass nd.id)) =
        [oneAssRow gridNds cellSize maxGrDist dst nd] ∧
      (oneAssRow gridNds cellSize maxGrDist dst nd).rhs = 1 ∧
      (oneAssRow gridNds cellSize maxGrDist dst nd).sense = Sense.fix ∧
      (oneAssRow gridNds cellSize maxGrDist dst nd).terms =
        (gridNds.filter (fun g => decide (g.isSink = true ∧ nd.deg ≤ g.deg ∧
            dst nd g < cellSize * maxGrDist))).map
          (fun g => (VarRef.sp g.id nd.id, (1 : ℚ))) ∧
      (∀ c ∈ assignCols gridNds cellSize maxGrDist dst movePen combNds,
        c.kind = VarKind.bin)) ∧
    (nd.deg = 0 →
      (assignRows gridNds cellSize maxGrDist dst combNds).filter
          (fun r => decide (r.rid = RowId.oneass nd.id)) = [] ∧
      (∀ c ∈ assignCols gridNds cellSize maxGrDist dst movePen combNds,
        ∀ gId, c.ref ≠ VarRef.sp gId nd.id)) := by
  constructor
  · intro hdeg
    refine ⟨?_, rfl, rfl, ?_, ?_⟩
    · apply filter_filter_map_single combNds _ _ _ nd hmem
        (List.Nodup.of_map _ hnd)
      · exact decide_eq_true (by omega)
      · exact decide_eq_true rfl
      · intro b hb hbne
        apply decide_eq_false
        intro hrid
        have hid : b.id = nd.id := by
          simpa [oneAssRow] using hrid
        exact hbne (List.inj_on_of_nodup_map hnd hb hmem hid)
    · show (statPosCands gridNds cellSize maxGrDist dst nd).map _ = _
      rw [statPosCands_eq_filter]
    · intro c hc
      obtain ⟨b, _, hcb⟩ := List.mem_flatMap.mp hc
      obtain ⟨g, _, rfl⟩ := List.mem_map.mp hcb
      rfl
  · intro hdeg
    constructor
    · apply filter_nil_of_false
      intro r hr
      obtain ⟨b, hb, rfl⟩ := List.mem_map.mp hr
      have hb0 : b.deg ≠ 0 :=
        of_decide_eq_true (List.mem_filter.mp hb).2
      apply decide_eq_false
      intro hrid
      have hid : b.id = nd.id := by
        simpa [oneAssRow] using hrid
      have hbnd : b = nd :=
        List.inj_on_of_nodup_map hnd (List.mem_of_mem_filter hb) hmem hid
      exact hb0 (hbnd ▸ hdeg)
    · intro c hc gId hcref
      obtain ⟨b, hb, hcb⟩ := List.mem_flatMap.mp hc
      obtain ⟨g, _, rfl⟩ := List.mem_map.mp hcb
      have hb0 : b.deg ≠ 0 :=
        of_decide_eq_true (List.mem_filter.mp hb).2
      have hid : b.id = nd.id := by
        simpa using congrArg (fun v => match v with
          | VarRef.sp _ m => m
          | _ => 0) hcref
      have hbnd : b = nd :=
        List.inj_on_of_nodup_map hnd (List.mem_of_mem_filter hb) hmem hid
      exact hb0 (hbnd ▸ hdeg)

/-- Witness for C4 on the sample instance: one comb node of degree 1 and one
admissible sink. -/
theorem unique_station_row_witness :
    (0 < cNodeA.deg →
      (assignRows gridNds1 1 1 (fun _ _ => 0) combNds1).filter
          (fun r => decide (r.rid = RowId.oneass cNodeA.id)) =
        [oneAssRow gridNds1 1 1 (fun _ _ => 0) cNodeA] ∧
      (oneAssRow gridNds1 1 1 (fun _ _ => 0) cNodeA).rhs = 1 ∧
      (oneAssRow gridNds1 1 1 (fun _ _ => 0) cNodeA).sense = Sense.fix ∧
      (oneAssRow gridNds1 1 1 (fun _ _ => 0) cNodeA).terms =
        (gridNds1.filter (fun g => decide (g.isSink = true ∧ cNodeA.deg ≤ g.deg ∧
            (fun (_ : CombNodeL) (_ : GridNodeL) => (0 : ℚ)) cNodeA g < 1 * 1))).map
          (fun g => (VarRef.sp g.id cNodeA.id, (1 : ℚ))) ∧
      (∀ c ∈ assignCols gridNds1 1 1 (fun _ _ => 0) (fun _ _ => 1) combNds1,
        c.kind = VarKind.bin)) ∧
    (cNodeA.deg = 0 →
      (assignRows gridNds1 1 1 (fun _ _ => 0) combNds1).filter
          (fun r => decide (r.rid = RowId.oneass cNodeA.id)) = [] ∧
      (∀ c ∈ assignCols gridNds1 1 1 (fun _ _ => 0) (fun _ _ => 1) combNds1,
        ∀ gId, c.ref ≠ VarRef.sp gId cNodeA.id)) :=
  unique_station_row gridNds1 1 1 (fun _ _ => 0) (fun _ _ => 1) combNds1 cNodeA
    (by decide) (by decide)

/-! ## Claim C1 -/

/-- Claim C1: for every grid node n with at least one incident edge of cost
below SOFT_INF and every comb edge f = (v_s, v_t), the flow section emits
exactly one upper-bound row with right-hand side 0; in it every existing
incoming edge-use variable has coefficient -1 and every outgoing one has
coefficient +1 when n is not a sink and +2 when it is; for a sink the terms
-2 sp(n, v_s) and +1 sp(n, v_t) are added whenever those station-position
variables exist; and the row contains no other terms. -/
theorem flow_conservation_row (has : VarRef → Bool) (gridNds : List GridNodeL)
    (combNds : List CombNodeL) (n : GridNodeL) (f : CombEdgeL)
    (hgnd : (gridNds.map GridNodeL.id).Nodup)
    (hend : ((combEdgesOf combNds).map CombEdgeL.id).Nodup)
    (hn : n ∈ gridNds) (hf : f ∈ combEdgesOf combNds)
    (hinf : nonInfDeg n ≠ 0) :
    (flowSection has gridNds combNds).filter
        (fun r => decide (r.rid = RowId.flowBal n.id f.id)) = [flowRow has n f] ∧
    (flowRow has n f).rhs = 0 ∧
    (flowRow has n f).sense = Sense.up ∧
    (∀ e ∈ n.adjIn, has (.edgUse e.frId e.toId f.id) = true →
      (VarRef.edgUse e.frId e.toId f.id, (-1 : ℚ)) ∈ (flowRow has n f).terms) ∧
    (∀ e ∈ n.adjOut, has (.edgUse e.frId e.toId f.id) = true →
      (VarRef.edgUse e.frId e.toId f.id, if n.isSink then (2 : ℚ) else 1) ∈
        (flowRow has n f).terms) ∧
    (n.isSink = true → has (.sp n.id f.frId) = true →
      (VarRef.sp n.id f.frId, (-2 : ℚ)) ∈ (flowRow has n f).terms) ∧
    (n.isSink = true → has (.sp n.id f.toId) = true →
      (VarRef.sp n.id f.toId, (1 : ℚ)) ∈ (flowRow has n f).terms) ∧
    (∀ t ∈ (flowRow has n f).terms,
      (∃ e ∈ n.adjIn, t = (VarRef.edgUse e.frId e.toId f.id, (-1 : ℚ))) ∨
      (∃ e ∈ n.adjOut,
        t = (VarRef.edgUse e.frId e.toId f.id, if n.isSink then (2 : ℚ) else 1)) ∨
      (n.isSink = true ∧ t = (VarRef.sp n.id f.frId, (-2 : ℚ))) ∨
      (n.isSink = true ∧ t = (VarRef.sp n.id f.toId, (1 : ℚ)))) := by
  refine ⟨?_, rfl, rfl, ?_, ?_, ?_, ?_, ?_⟩
  · have step1 : (flowSection has gridNds combNds).filter
        (fun r => decide (r.rid = RowId.flowBal n.id f.id)) =
        ((combEdgesOf combNds).map (flowRow has n)).filter
          (fun r => decide (r.rid = RowId.flowBal n.id f.id)) := by
      apply filter_flatMap_single gridNds _ _ _ n hn (List.Nodup.of_map _ hgnd)
        (decide_eq_true hinf)
      intro b hb hbne
      apply filter_nil_of_false
      intro r hr
      obtain ⟨f2, _, rfl⟩ := List.mem_map.mp hr
      apply decide_eq_false
      intro hrid
      have hid : b.id = n.id := by
        simpa [flowRow] using congrArg (fun v => match v with
          | RowId.flowBal g _ => g
          | _ => 0) hrid
      exact hbne (List.inj_on_of_nodup_map hgnd hb hn hid)
    rw [step1]
    apply filter_map_eq_single (combEdgesOf combNds) (flowRow has n)
      (fun r => decide (r.rid = RowId.flowBal n.id f.id)) f hf
      (List.Nodup.of_map _ hend) (decide_eq_true rfl)
    intro f2 hf2 hf2ne
    apply decide_eq_false
    intro hrid
    have hid : f2.id = f.id := by
      simpa [flowRow] using congrArg (fun v => match v with
        | RowId.flowBal _ c => c
        | _ => 0) hrid
    exact hf2ne (List.inj_on_of_nodup_map hend hf2 hf hid)
  · intro e he hhas
    have h1 : (VarRef.edgUse e.frId e.toId f.id, (-1 : ℚ)) ∈ flowInTerms has n f :=
      List.mem_map_of_mem _ (List.mem_filter.mpr ⟨he, hhas⟩)
    exact List.mem_append_left _ (List.mem_append_right _ h1)
  · intro e he hhas
    have h1 : (VarRef.edgUse e.frId e.toId f.id,
        if n.isSink then (2 : ℚ) else 1) ∈ flowOutTerms has n f :=
      List.mem_map_of_mem _ (List.mem_filter.mpr ⟨he, hhas⟩)
    exact List.mem_append_right _ h1
  · intro hs hhas
    have h1 : (VarRef.sp n.id f.frId, (-2 : ℚ)) ∈ flowBaseTerms has n f := by
      simp [flowBaseTerms, hs, hhas]
    exact List.mem_append_left _ (List.mem_append_left _ h1)
  · intro hs hhas
    have h1 : (VarRef.sp n.id f.toId, (1 : ℚ)) ∈ flowBaseTerms has n f := by
      simp [flowBaseTerms, hs, hhas]
    exact List.mem_append_left _ (List.mem_append_left _ h1)
  · intro t ht
    rcases List.mem_append.mp ht with h1 | hout
    · rcases List.mem_append.mp h1 with hbase | hin
      · by_cases hs : n.isSink = true
        · right; right
          by_cases hf1 : has (.sp n.id f.frId) = true <;>
            by_cases hf2 : has (.sp n.id f.toId) = true <;>
            simp [flowBaseTerms, hs, hf1, hf2] at hbase <;>
            tauto
        · simp [flowBaseTerms, hs] at hbase
      · left
        obtain ⟨e, he, rfl⟩ := List.mem_map.mp hin
        exact ⟨e, List.mem_of_mem_filter he, rfl⟩
    · right; left
      obtain ⟨e, he, rfl⟩ := List.mem_map.mp hout
      exact ⟨e, List.mem_of_mem_filter he, rfl⟩

/-- Witness for C1 on the sample instance: a sink with one in-edge and one
out-edge and a single comb edge, with every variable present. -/
theorem flow_conservation_row_witness :
    (flowSection (fun _ => true) gridNds1 combNds1).filter
        (fun r => decide (r.rid = RowId.flowBal gNode1.id cEdgeF.id)) =
      [flowRow (fun _ => true) gNode1 cEdgeF] ∧
    (flowRow (fun _ => true) gNode1 cEdgeF).rhs = 0 ∧
    (flowRow (fun _ => true) gNode1 cEdgeF).sense = Sense.up ∧
    (∀ e ∈ gNode1.adjIn, (fun _ => true) (VarRef.edgUse e.frId e.toId cEdgeF.id) = true →
      (VarRef.edgUse e.frId e.toId cEdgeF.id, (-1 : ℚ)) ∈
        (flowRow (fun _ => true) gNode1 cEdgeF).terms) ∧
    (∀ e ∈ gNode1.adjOut, (fun _ => true) (VarRef.edgUse e.frId e.toId cEdgeF.id) = true →
      (VarRef.edgUse e.frId e.toId cEdgeF.id,
        if gNode1.isSink then (2 : ℚ) else 1) ∈
        (flowRow (fun _ => true) gNode1 cEdgeF).terms) ∧
    (gNode1.isSink = true → (fun _ => true) (VarRef.sp gNode1.id cEdgeF.frId) = true →
      (VarRef.sp gNode1.id cEdgeF.frId, (-2 : ℚ)) ∈
        (flowRow (fun _ => true) gNode1 cEdgeF).terms) ∧
    (gNode1.isSink = true → (fun _ => true) (VarRef.sp gNode1.id cEdgeF.toId) = true →
      (VarRef.sp gNode1.id cEdgeF.toId, (1 : ℚ)) ∈
        (flowRow (fun _ => true) gNode1 cEdgeF).terms) ∧
    (∀ t ∈ (flowRow (fun _ => true) gNode1 cEdgeF).terms,
      (∃ e ∈ gNode1.adjIn, t = (VarRef.edgUse e.frId e.toId cEdgeF.id, (-1 : ℚ))) ∨
      (∃ e ∈ gNode1.adjOut,
        t = (VarRef.edgUse e.frId e.toId cEdgeF.id,
          if gNode1.isSink then (2 : ℚ) else 1)) ∨
      (gNode1.isSink = true ∧ t = (VarRef.sp gNode1.id cEdgeF.frId, (-2 : ℚ))) ∨
      (gNode1.isSink = true ∧ t = (VarRef.sp gNode1.id cEdgeF.toId, (1 : ℚ)))) :=
  flow_conservation_row (fun _ => true) gridNds1 combNds1 gNode1 cEdgeF
    (by decide) (by decide) (by decide) (by decide)
    (by norm_num [nonInfDeg, gNode1, gEdgeIn1, gEdgeOut1, SOFT_INF])

/-! ## Claim C2 -/

/-- Claim C2: for every comb node nd of degree at least 3, the ordering
section adds deg(nd) binary vuln variables constrained by exactly one
equality row to sum to 1, and for every consecutive pair (a, b) of the
circular input edge ordering (index i, the pair at i = 0 wrapping from the
last element back to the first) exactly one lower-bound row with right-hand
side 1 and terms d(nd, b) + 1, d(nd, a) - 1 and vuln(nd, i) + 8; nodes of
degree below 3 get none of these rows or variables. -/
theorem circular_ordering_rows (combNds : List CombNodeL) (nd : CombNodeL)
    (hnd : (combNds.map CombNodeL.id).Nodup) (hmem : nd ∈ combNds) :
    (3 ≤ nd.deg →
      (ordSectionRows combNds).filter
          (fun r => decide (r.rid = RowId.vulnSum nd.id)) = [vulnRow nd] ∧
      (vulnRow nd).rhs = 1 ∧
      (vulnRow nd).sense = Sense.fix ∧
      (vulnRow nd).terms =
        (List.range nd.deg).map (fun i => (VarRef.vuln nd.id i, (1 : ℚ))) ∧
      (ordSectionCols combNds).filter (fun c => c.ref.isVulnOf nd.id) =
        vulnCols nd ∧
      (vulnCols nd).length = nd.deg ∧
      (∀ c ∈ vulnCols nd, c.kind = VarKind.bin ∧
        ∃ i < nd.deg, c.ref = VarRef.vuln nd.id i) ∧
      (∀ i < nd.order.length,
        (ordSectionRows combNds).filter
            (fun r => decide (r.rid = RowId.ordC nd.id i)) = [ordRow nd i] ∧
        (ordRow nd i).rhs = 1 ∧
        (ordRow nd i).sense = Sense.lo ∧
        (ordRow nd i).terms =
          [(VarRef.dir nd.id (nd.order.getD i 0), (1 : ℚ)),
           (VarRef.dir nd.id
             (if i = 0 then nd.order.getLastD 0 else nd.order.getD (i - 1) 0),
             (-1 : ℚ)),
           (VarRef.vuln nd.id i, (8 : ℚ))])) ∧
    (nd.deg < 3 →
      (ordSectionRows combNds).filter
          (fun r => decide (r.rid = RowId.vulnSum nd.id)) = [] ∧
      (∀ i, (ordSectionRows combNds).filter
          (fun r => decide (r.rid = RowId.ordC nd.id i)) = []) ∧
      (ordSectionCols combNds).filter (fun c => c.ref.isVulnOf nd.id) = []) := by
  constructor
  · intro hdeg
    refine ⟨?_, rfl, rfl, rfl, ?_, by simp [vulnCols], ?_, ?_⟩
    · have step1 : (ordSectionRows combNds).filter
          (fun r => decide (r.rid = RowId.vulnSum nd.id)) =
          (vulnRow nd :: ordRows nd).filter
            (fun r => decide (r.rid = RowId.vulnSum nd.id)) := by
        apply filter_flatMap_single combNds _ _ _ nd hmem
          (List.Nodup.of_map _ hnd) (decide_eq_true hdeg)
        intro b hb hbne
        apply filter_nil_of_false
        intro r hr
        rcases List.mem_cons.mp hr with rfl | hro
        · apply decide_eq_false
          intro hrid
          have hid : b.id = nd.id := by simpa [vulnRow] using hrid
          exact hbne (List.inj_on_of_nodup_map hnd hb hmem hid)
        · obtain ⟨i, _, rfl⟩ := List.mem_map.mp hro
          simp [ordRow]
      have hvp : decide ((vulnRow nd).rid = RowId.vulnSum nd.id) = true := by
        simp [vulnRow]
      have hord : (ordRows nd).filter
          (fun r => decide (r.rid = RowId.vulnSum nd.id)) = [] := by
        apply filter_nil_of_false
        intro r hr
        obtain ⟨i, _, rfl⟩ := List.mem_map.mp hr
        simp [ordRow]
      rw [step1, List.filter_cons, if_pos hvp, hord]
    · have step1 : (ordSectionCols combNds).filter
          (fun c => c.ref.isVulnOf nd.id) =
          (vulnCols nd).filter (fun c => c.ref.isVulnOf nd.id) := by
        apply filter_flatMap_single combNds _ _ _ nd hmem
          (List.Nodup.of_map _ hnd) (decide_eq_true hdeg)
        intro b hb hbne
        apply filter_nil_of_false
        intro c hc
        obtain ⟨i, _, rfl⟩ := List.mem_map.mp hc
        simp only [VarRef.isVulnOf]
        apply decide_eq_false
        intro hid
        exact hbne (List.inj_on_of_nodup_map hnd hb hmem hid)
      rw [step1]
      apply filter_self_of_true
      intro c hc
      obtain ⟨i, _, rfl⟩ := List.mem_map.mp hc
      simp [VarRef.isVulnOf]
    · intro c hc
      obtain ⟨i, hi, rfl⟩ := List.mem_map.mp hc
      exact ⟨rfl, i, List.mem_range.mp hi, rfl⟩
    · intro i hi
      refine ⟨?_, rfl, rfl, rfl⟩
      have step1 : (ordSectionRows combNds).filter
          (fun r => decide (r.rid = RowId.ordC nd.id i)) =
          (vulnRow nd :: ordRows nd).filter
            (fun r => decide (r.rid = RowId.ordC nd.id i)) := by
        apply filter_flatMap_single combNds _ _ _ nd hmem
          (List.Nodup.of_map _ hnd) (decide_eq_true hdeg)
        intro b hb hbne
        apply filter_nil_of_false
        intro r hr
        rcases List.mem_cons.mp hr with rfl | hro
        · simp [vulnRow]
        · obtain ⟨j, _, rfl⟩ := List.mem_map.mp hro
          apply decide_eq_false
          intro hrid
          have hid : b.id = nd.id := by
            simpa [ordRow] using congrArg (fun v => match v with
              | RowId.ordC m _ => m
              | _ => 0) hrid
          exact hbne (List.inj_on_of_nodup_map hnd hb hmem hid)
      rw [step1, List.filter_cons, if_neg (by simp [vulnRow])]
      apply filter_map_eq_single (List.range nd.order.length) (ordRow nd)
        (fun r => decide (r.rid = RowId.ordC nd.id i)) i
        (List.mem_range.mpr hi) (List.nodup_range _) (decide_eq_true rfl)
      intro j _ hji
      apply decide_eq_false
      intro hrid
      have : j = i := by
        simpa [ordRow] using congrArg (fun v => match v with
          | RowId.ordC _ s => s
          | _ => 0) hrid
      exact hji this
  · intro hdeg
    have hbne : ∀ b ∈ combNds.filter (fun x => decide (3 ≤ x.deg)),
        b.id ≠ nd.id := by
      intro b hb hid
      have hb3 : 3 ≤ b.deg := of_decide_eq_true (List.mem_filter.mp hb).2
      have hbnd : b = nd :=
        List.inj_on_of_nodup_map hnd (List.mem_of_mem_filter hb) hmem hid
      rw [hbnd] at hb3
      omega
    refine ⟨?_, ?_, ?_⟩
    · apply filter_flatMap_nil
      intro b hb
      apply filter_nil_of_false
      intro r hr
      rcases List.mem_cons.mp hr with rfl | hro
      · apply decide_eq_false
        intro hrid
        exact hbne b hb (by simpa [vulnRow] using hrid)
      · obtain ⟨i, _, rfl⟩ := List.mem_map.mp hro
        simp [ordRow]
    · intro i
      apply filter_flatMap_nil
      intro b hb
      apply filter_nil_of_false
      intro r hr
      rcases List.mem_cons.mp hr with rfl | hro
      · simp [vulnRow]
      · obtain ⟨j, _, rfl⟩ := List.mem_map.mp hro
        apply decide_eq_false
        intro hrid
        exact hbne b hb (by
          simpa [ordRow] using congrArg (fun v => match v with
            | RowId.ordC m _ => m
            | _ => 0) hrid)
    · apply filter_flatMap_nil
      intro b hb
      apply filter_nil_of_false
      intro c hc
      obtain ⟨i, _, rfl⟩ := List.mem_map.mp hc
      simp only [VarRef.isVulnOf]
      exact decide_eq_false (hbne b hb)

/-- Witness for C2 on the sample degree-3 comb node. -/
theorem circular_ordering_rows_witness :
    (3 ≤ cNodeD3.deg →
      (ordSectionRows combNds2).filter
          (fun r => decide (r.rid = RowId.vulnSum cNodeD3.id)) = [vulnRow cNodeD3] ∧
      (vulnRow cNodeD3).rhs = 1 ∧
      (vulnRow cNodeD3).sense = Sense.fix ∧
      (vulnRow cNodeD3).terms =
        (List.range cNodeD3.deg).map (fun i => (VarRef.vuln cNodeD3.id i, (1 : ℚ))) ∧
      (ordSectionCols combNds2).filter (fun c => c.ref.isVulnOf cNodeD3.id) =
        vulnCols cNodeD3 ∧
      (vulnCols cNodeD3).length = cNodeD3.deg ∧
      (∀ c ∈ vulnCols cNodeD3, c.kind = VarKind.bin ∧
        ∃ i < cNodeD3.deg, c.ref = VarRef.vuln cNodeD3.id i) ∧
      (∀ i < cNodeD3.order.length,
        (ordSectionRows combNds2).filter
            (fun r => decide (r.rid = RowId.ordC cNodeD3.id i)) = [ordRow cNodeD3 i] ∧
        (ordRow cNodeD3 i).rhs = 1 ∧
        (ordRow cNodeD3 i).sense = Sense.lo ∧
        (ordRow cNodeD3 i).terms =
          [(VarRef.dir cNodeD3.id (cNodeD3.order.getD i 0), (1 : ℚ)),
           (VarRef.dir cNodeD3.id
             (if i = 0 then cNodeD3.order.getLastD 0
              else cNodeD3.order.getD (i - 1) 0), (-1 : ℚ)),
           (VarRef.vuln cNodeD3.id i, (8 : ℚ))])) ∧
    (cNodeD3.deg < 3 →
      (ordSectionRows combNds2).filter
          (fun r => decide (r.rid = RowId.vulnSum cNodeD3.id)) = [] ∧
      (∀ i, (ordSectionRows combNds2).filter
          (fun r => decide (r.rid = RowId.ordC cNodeD3.id i)) = []) ∧
      (ordSectionCols combNds2).filter (fun c => c.ref.isVulnOf cNodeD3.id) = []) :=
  circular_ordering_rows combNds2 cNodeD3 (by decide) (by decide)

/-! ## Claim C3 -/

theorem pairsUpper_mem {α : Type} : ∀ (l : List α) (u v : α),
    (u, v) ∈ pairsUpper l → u ∈ l ∧ v ∈ l := by
  intro l
  induction l with
  | nil => intro u v h; cases h
  | cons c t ih =>
    intro u v h
    rcases List.mem_append.mp h with h1 | h2
    · obtain ⟨d, hd, heq⟩ := List.mem_map.mp h1
      cases heq
      exact ⟨List.mem_cons_self _ _, List.mem_cons_of_mem _ hd⟩
    · obtain ⟨hu, hv⟩ := ih u v h2
      exact ⟨List.mem_cons_of_mem _ hu, List.mem_cons_of_mem _ hv⟩

theorem sharedLinesCount_zero_symm (a b : CombEdgeL)
    (h : sharedLinesCount a b = 0) : sharedLinesCount b a = 0 := by
  unfold sharedLinesCount at h ⊢
  rw [List.length_eq_zero] at h ⊢
  apply filter_nil_of_false
  intro y hy
  apply decide_eq_false
  intro hya
  have hmem : y ∈ a.lines.filter (fun l => decide (l ∈ b.lines)) :=
    List.mem_filter.mpr ⟨hya, decide_eq_true hy⟩
  rw [h] at hmem
  cases hmem

/-- Claim C3: for every unordered pair (a, b) of distinct comb edges incident
to the same comb node that share at least one line, the bend-angle section
introduces a binary negdist variable, a lower-bound row and an upper-bound row
encoding 0 <= d(v, a) - d(v, b) + 8 negdist <= 7, one fixed row whose bucket
terms carry coefficient -(k + 1) (so that the bucket weighted sum equals
d(v, a) - d(v, b) + 8 negdist), one row bounding the bucket sum by 1, and
seven binary bucket columns; with a four-level penalty vector the objective
coefficient of the bucket with weight k is the penalty level |4 - k| (so
buckets k and 8 - k share a level); pairs sharing no line get none of these
variables or rows. -/
theorem bend_angle_pair_model (pens : List ℚ) (combNds : List CombNodeL)
    (nd : CombNodeL) (a b : CombEdgeL)
    (hmem : nd ∈ combNds) (hp : (a, b) ∈ pairsUpper nd.adj) :
    (sharedLinesCount a b ≠ 0 →
      ({ ref := VarRef.negdist a.id b.id, kind := VarKind.bin, obj := 0,
         lb := none, ub := none } : ColL) ∈ angleSectionCols pens combNds ∧
      (∀ k < maxDeg - 1,
        ({ ref := VarRef.bucket a.id b.id k, kind := VarKind.bin,
           obj := bucketObj pens k, lb := none, ub := none } : ColL) ∈
          angleSectionCols pens combNds) ∧
      ({ rid := RowId.ncLo a.id b.id, rhs := 0, sense := Sense.lo,
         terms := [(VarRef.dir nd.id a.id, 1), (VarRef.dir nd.id b.id, -1),
                   (VarRef.negdist a.id b.id, (maxDeg : ℚ))] } : RowL) ∈
        angleSectionRows combNds ∧
      ({ rid := RowId.ncUp a.id b.id, rhs := (maxDeg : ℚ) - 1, sense := Sense.up,
         terms := [(VarRef.dir nd.id a.id, 1), (VarRef.dir nd.id b.id, -1),
                   (VarRef.negdist a.id b.id, (maxDeg : ℚ))] } : RowL) ∈
        angleSectionRows combNds ∧
      ({ rid := RowId.acR a.id b.id, rhs := 0, sense := Sense.fix,
         terms := [(VarRef.dir nd.id a.id, 1), (VarRef.dir nd.id b.id, -1),
                   (VarRef.negdist a.id b.id, (maxDeg : ℚ))] ++
           (List.range (maxDeg - 1)).map (fun k =>
             (VarRef.bucket a.id b.id k, -((k : ℚ) + 1))) } : RowL) ∈
        angleSectionRows combNds ∧
      ({ rid := RowId.ascR a.id b.id, rhs := 1, sense := Sense.up,
         terms := (List.range (maxDeg - 1)).map (fun k =>
           (VarRef.bucket a.id b.id k, (1 : ℚ))) } : RowL) ∈
        angleSectionRows combNds ∧
      (maxDeg : ℚ) = 8 ∧ (maxDeg : ℚ) - 1 = 7 ∧ maxDeg - 1 = 7) ∧
    (pens.length = 4 →
      ∀ k, 1 ≤ k → k ≤ 7 →
        bucketObj pens (k - 1) = pens.getD ((4 - (k : Int)).natAbs) 0 ∧
        bucketObj pens (k - 1) = bucketObj pens (7 - k)) ∧
    ((∀ x ∈ combNds, ∀ ex ∈ x.adj, ∀ y ∈ combNds, ∀ ey ∈ y.adj,
        ex.id = ey.id → ex = ey) →
     sharedLinesCount a b = 0 →
      (∀ c ∈ angleSectionCols pens combNds,
        c.ref ≠ VarRef.negdist a.id b.id ∧ c.ref ≠ VarRef.negdist b.id a.id ∧
        ∀ k, c.ref ≠ VarRef.bucket a.id b.id k ∧
          c.ref ≠ VarRef.bucket b.id a.id k) ∧
      (∀ r ∈ angleSectionRows combNds,
        r.rid ≠ RowId.ncLo a.id b.id ∧ r.rid ≠ RowId.ncUp a.id b.id ∧
        r.rid ≠ RowId.acR a.id b.id ∧ r.rid ≠ RowId.ascR a.id b.id ∧
        r.rid ≠ RowId.ncLo b.id a.id ∧ r.rid ≠ RowId.ncUp b.id a.id ∧
        r.rid ≠ RowId.acR b.id a.id ∧ r.rid ≠ RowId.ascR b.id a.id)) := by
  refine ⟨?_, ?_, ?_⟩
  · intro hsh
    have hpm : (a, b) ∈ anglePairs nd :=
      List.mem_filter.mpr ⟨hp, decide_eq_true hsh⟩
    have hc : ∀ c ∈ pairCols pens a b, c ∈ angleSectionCols pens combNds := by
      intro c hcp
      exact List.mem_flatMap.mpr ⟨nd, hmem, List.mem_flatMap.mpr ⟨(a, b), hpm, hcp⟩⟩
    have hr : ∀ r ∈ pairRows nd.id a b, r ∈ angleSectionRows combNds := by
      intro r hrp
      exact List.mem_flatMap.mpr ⟨nd, hmem, List.mem_flatMap.mpr ⟨(a, b), hpm, hrp⟩⟩
    refine ⟨hc _ (List.mem_cons_self _ _), ?_, ?_, ?_, ?_, ?_,
      by norm_num [maxDeg], by norm_num [maxDeg], rfl⟩
    · intro k hk
      exact hc _ (List.mem_cons_of_mem _
        (List.mem_map.mpr ⟨k, List.mem_range.mpr hk, rfl⟩))
    · exact hr _ (by simp [pairRows])
    · exact hr _ (by simp [pairRows])
    · exact hr _ (by simp [pairRows])
    · exact hr _ (by simp [pairRows])
  · intro hlen k hk1 hk7
    interval_cases k <;> constructor <;> simp [bucketObj, hlen]
  · intro hinj hz
    obtain ⟨ha2, hb2⟩ := pairsUpper_mem nd.adj a b hp
    have hz2 := sharedLinesCount_zero_symm a b hz
    constructor
    · intro c hcm
      obtain ⟨x, hx, hc2⟩ := List.mem_flatMap.mp hcm
      obtain ⟨q, hq, hc3⟩ := List.mem_flatMap.mp hc2
      have hqf := List.mem_filter.mp hq
      obtain ⟨hu2, hv2⟩ := pairsUpper_mem x.adj q.1 q.2 hqf.1
      have hsq : sharedLinesCount q.1 q.2 ≠ 0 := of_decide_eq_true hqf.2
      have hne1 : ¬(q.1.id = a.id ∧ q.2.id = b.id) := by
        rintro ⟨h1, h2⟩
        have hqa : q.1 = a := hinj x hx q.1 hu2 nd hmem a ha2 h1
        have hqb : q.2 = b := hinj x hx q.2 hv2 nd hmem b hb2 h2
        rw [hqa, hqb] at hsq
        exact hsq hz
      have hne2 : ¬(q.1.id = b.id ∧ q.2.id = a.id) := by
        rintro ⟨h1, h2⟩
        have hqa : q.1 = b := hinj x hx q.1 hu2 nd hmem b hb2 h1
        have hqb : q.2 = a := hinj x hx q.2 hv2 nd hmem a ha2 h2
        rw [hqa, hqb] at hsq
        exact hsq hz2
      rcases List.mem_cons.mp hc3 with rfl | hc4
      · refine ⟨?_, ?_, fun k => ⟨?_, ?_⟩⟩ <;> intro heq <;>
        first
          | exact VarRef.noConfusion heq
          | (injection heq with h1 h2; exact hne1 ⟨h1, h2⟩)
          | (injection heq with h1 h2; exact hne2 ⟨h1, h2⟩)
      · obtain ⟨k2, _, rfl⟩ := List.mem_map.mp hc4
        refine ⟨?_, ?_, fun k => ⟨?_, ?_⟩⟩ <;> intro heq <;>
        first
          | exact VarRef.noConfusion heq
          | (injection heq with h1 h2 h3; exact hne1 ⟨h1, h2⟩)
          | (injection heq with h1 h2 h3; exact hne2 ⟨h1, h2⟩)
    · intro r hrm
      obtain ⟨x, hx, hr2⟩ := List.mem_flatMap.mp hrm
      obtain ⟨q, hq, hr3⟩ := List.mem_flatMap.mp hr2
      have hqf := List.mem_filter.mp hq
      obtain ⟨hu2, hv2⟩ := pairsUpper_mem x.adj q.1 q.2 hqf.1
      have hsq : sharedLinesCount q.1 q.2 ≠ 0 := of_decide_eq_true hqf.2
      have hne1 : ¬(q.1.id = a.id ∧ q.2.id = b.id) := by
        rintro ⟨h1, h2⟩
        have hqa : q.1 = a := hinj x hx q.1 hu2 nd hmem a ha2 h1
        have hqb : q.2 = b := hinj x hx q.2 hv2 nd hmem b hb2 h2
        rw [hqa, hqb] at hsq
        exact hsq hz
      have hne2 : ¬(q.1.id = b.id ∧ q.2.id = a.id) := by
        rintro ⟨h1, h2⟩
        have hqa : q.1 = b := hinj x hx q.1 hu2 nd hmem b hb2 h1
        have hqb : q.2 = a := hinj x hx q.2 hv2 nd hmem a ha2 h2
        rw [hqa, hqb] at hsq
        exact hsq hz2
      rcases (by simpa [pairRows] using hr3 :
          r = { rid := RowId.ncLo q.1.id q.2.id, rhs := 0, sense := Sense.lo,
                terms := [(VarRef.dir x.id q.1.id, 1), (VarRef.dir x.id q.2.id, -1),
                          (VarRef.negdist q.1.id q.2.id, (maxDeg : ℚ))] } ∨
          r = { rid := RowId.ncUp q.1.id q.2.id, rhs := (maxDeg : ℚ) - 1,
                sense := Sense.up,
                terms := [(VarRef.dir x.id q.1.id, 1), (VarRef.dir x.id q.2.id, -1),
                          (VarRef.negdist q.1.id q.2.id, (maxDeg : ℚ))] } ∨
          r = { rid := RowId.acR q.1.id q.2.id, rhs := 0, sense := Sense.fix,
                terms := [(VarRef.dir x.id q.1.id, 1), (VarRef.dir x.id q.2.id, -1),
                          (VarRef.negdist q.1.id q.2.id, (maxDeg : ℚ))] ++
                  (List.range (maxDeg - 1)).map (fun k =>
                    (VarRef.bucket q.1.id q.2.id k, -((k : ℚ) + 1))) } ∨
          r = { rid := RowId.ascR q.1.id q.2.id, rhs := 1, sense := Sense.up,
                terms := (List.range (maxDeg - 1)).map (fun k =>
                  (VarRef.bucket q.1.id q.2.id k, (1 : ℚ))) }) with
        rfl | rfl | rfl | rfl <;>
      refine ⟨?_, ?_, ?_, ?_, ?_, ?_, ?_, ?_⟩ <;> intro heq <;>
      first
        | exact RowId.noConfusion heq
        | (injection heq with h1 h2; exact hne1 ⟨h1, h2⟩)
        | (injection heq with h1 h2; exact hne2 ⟨h1, h2⟩)

/-- Witness for C3 on the sample pair sharing line 7: the negdist column, the
first bucket column, and the fixed angle row are present. -/
theorem bend_angle_pair_model_witness :
    ({ ref := VarRef.negdist 1 2, kind := VarKind.bin, obj := 0,
       lb := none, ub := none } : ColL) ∈ angleSectionCols pens4 combNds3 ∧
    ({ rid := RowId.ascR 1 2, rhs := 1, sense := Sense.up,
       terms := (List.range (maxDeg - 1)).map (fun k =>
         (VarRef.bucket 1 2 k, (1 : ℚ))) } : RowL) ∈ angleSectionRows combNds3 ∧
    bucketObj pens4 0 = pens4.getD 3 0 :=
  ⟨((bend_angle_pair_model pens4 combNds3 cNodeAng cEdgeA3 cEdgeB3
      (by decide) (by decide)).1 (by decide)).1,
   (((((bend_angle_pair_model pens4 combNds3 cNodeAng cEdgeA3 cEdgeB3
      (by decide) (by decide)).1 (by decide)).2).2).2).2.2.1,
   by
    have h := ((bend_angle_pair_model pens4 combNds3 cNodeAng cEdgeA3 cEdgeB3
      (by decide) (by decide)).2).1 (by decide) 1 (by decide) (by decide)
    simpa [pens4] using h.1⟩

end LoomSpec
